import Mathlib

/-!
Shallow embedding of `src/fwdpy11_arg_example/ancestry_tracker.hpp`
(`struct ancestry_tracker`), the bookkeeping engine that records nodes and
edges of an ancestral recombination graph during a forward simulation.

Modelling conventions:
* `integer_type` (`decltype(edge::parent)`, a machine integer) is modelled as
  `Int`.  The spec treats identity-counter overflow as outside the contract
  (caller responsibility, not guarded), so the unbounded model is faithful on
  the contracted range of inputs.
* `node::generation` is a C++ `double`, but every value ever stored in it is
  an integer (0.0 at initialization, the integral generation counter at
  `finish_generation`, and differences/negations of those in `prep_for_gc`),
  and such arithmetic on doubles is exact; it is modelled as `Int`.
* Edge breakpoints are `double`s that are only stored, never computed with;
  they are modelled as `ℚ`.
* `lastN` is a `std::uint32_t`; the C++ conversion from `integer_type` is
  modular, modelled by reducing mod 2^32.
* `offspring_indexes.front()` on an empty vector is undefined behaviour, so
  `finish_generation` returns an `Option`, with `none` marking that case.
* `post_process_gc` receives a Python tuple `(bool, integer)`; it is modelled
  as taking the two components directly.
-/

/-- One genome-copy record.  Modelled from the spec: `node.hpp` is not among
the provided sources; its fields (integer id, numeric generation/time,
integer population label) are fixed by spec §3 and by the source comment
"ID, time 0, population 0" at the constructor call site. -/
structure node where
  id : Int
  generation : Int
  population : Int
deriving DecidableEq

/-- One inheritance-interval record.  Modelled from the spec: `edge.hpp` is
not among the provided sources; its fields (left and right breakpoints,
parent id, child id) are fixed by spec §3 and by the `make_edge` call sites. -/
structure edge where
  left : ℚ
  right : ℚ
  parent : Int
  child : Int
deriving DecidableEq

/-- `make_node(id, generation, population)` from `node.hpp` (field order per
the constructor comment in the source). -/
def make_node (i g pop : Int) : node :=
  ⟨i, g, pop⟩

/-- `make_edge(left, right, parent, child)` from `edge.hpp`. -/
def make_edge (l r : ℚ) (p c : Int) : edge :=
  ⟨l, r, p, c⟩

/-- The tracker state: the fields of `struct ancestry_tracker`. -/
@[ext]
structure ancestry_tracker where
  nodes : List node
  edges : List edge
  temp : List edge
  offspring_indexes : List Int
  generation : Int
  next_index : Int
  first_parental_index : Int
  lastN : Nat
  last_gc_time : Int
deriving DecidableEq

/-- The constructor `ancestry_tracker(N)`: 2N founder nodes with ids
`0..2N-1`, time 0, population 0; `generation = 1`, `next_index = 2N`,
`first_parental_index = 0`, `lastN = uint32(N)`, `last_gc_time = 0`. -/
def ancestry_tracker.init (N : Int) : ancestry_tracker where
  nodes := (List.range (2 * N).toNat).map (fun i : Nat => make_node (i : Int) 0 0)
  edges := []
  temp := []
  offspring_indexes := []
  generation := 1
  next_index := 2 * N
  first_parental_index := 0
  lastN := (N % 2 ^ 32).toNat
  last_gc_time := 0

/-- `get_parent_ids(p, did_swap)`: the two genome-copy identities of the
parent with ordinal `p`.  The C++ `did_swap` is an `int` used as a boolean
(`!did_swap` flips 0 and 1); it is modelled as `Bool`. -/
def get_parent_ids (t : ancestry_tracker) (p : Nat) (did_swap : Bool) :
    Int × Int :=
  (t.first_parental_index + 2 * (p : Int) + (if did_swap then 1 else 0),
   t.first_parental_index + 2 * (p : Int) + (if did_swap then 0 else 1))

/-- `get_next_indexes()`: returns `(next_index, next_index + 1)`, advances
`next_index` by 2 and pushes both returned identities, in order, onto
`offspring_indexes`. -/
def get_next_indexes (t : ancestry_tracker) :
    (Int × Int) × ancestry_tracker :=
  ((t.next_index, t.next_index + 1),
   { t with
     next_index := t.next_index + 2,
     offspring_indexes :=
       t.offspring_indexes ++ [t.next_index, t.next_index + 1] })

/-- `add_edges(breakpoints, parent, child)`: one staged edge per breakpoint
interval, in order. -/
def add_edges (t : ancestry_tracker) (breakpoints : List (ℚ × ℚ))
    (parent child : Int) : ancestry_tracker :=
  { t with
    temp := t.temp ++ breakpoints.map (fun bi => make_edge bi.1 bi.2 parent child) }

/-- `finish_generation()`: appends one node per recorded offspring identity
(at the current generation time), moves `temp` into `edges`, updates `lastN`
and `first_parental_index` (the latter to `offspring_indexes.front()`),
clears `temp` and increments the generation counter.  `front()` on an empty
vector is undefined behaviour, modelled by `none`; with a non-empty list
`headD 0` equals `front()`.  Note the source clears only `temp`, not
`offspring_indexes`. -/
def finish_generation (t : ancestry_tracker) : Option ancestry_tracker :=
  if t.offspring_indexes = [] then none
  else
    some
      { t with
        nodes :=
          t.nodes ++ t.offspring_indexes.map (fun oi => make_node oi t.generation 0),
        edges := t.edges ++ t.temp,
        lastN := ((t.next_index - t.first_parental_index) % 2 ^ 32).toNat,
        first_parental_index := t.offspring_indexes.headD 0,
        temp := [],
        generation := t.generation + 1 }

/-- `prep_for_gc()`: no-op on an empty node store; otherwise reads
`max_gen = nodes.back().generation` (the LAST node's time, modelled by
`getLastD`) and replaces every node's time by `-(time - max_gen)`. -/
def prep_for_gc (t : ancestry_tracker) : ancestry_tracker :=
  if t.nodes = [] then t
  else
    let max_gen := (t.nodes.getLastD (make_node 0 0 0)).generation
    { t with
      nodes := t.nodes.map (fun n => { n with generation := -(n.generation - max_gen) }) }

/-- `post_process_gc(t)` with `t = (gc, new_next_index)`: no-op when `gc` is
false; otherwise records the generation counter in `last_gc_time`, installs
the new `next_index`, resets `first_parental_index` to 0 and clears the node
and edge stores. -/
def post_process_gc (t : ancestry_tracker) (gc : Bool)
    (new_next_index : Int) : ancestry_tracker :=
  if !gc then t
  else
    { t with
      last_gc_time := t.generation,
      next_index := new_next_index,
      first_parental_index := 0,
      nodes := [],
      edges := [] }

/-- `k` successive calls to `get_next_indexes` (the allocator being called
once per offspring pair), collecting the returned pairs in call order. -/
def alloc_pairs : Nat → ancestry_tracker → List (Int × Int) × ancestry_tracker
  | 0, t => ([], t)
  | k + 1, t =>
    let step := get_next_indexes t
    let rest := alloc_pairs k step.2
    (step.1 :: rest.1, rest.2)

/-- States reachable from a freshly constructed tracker through the tracker's
own operations. -/
inductive Reach : ancestry_tracker → Prop where
  | init (N : Int) : Reach (ancestry_tracker.init N)
  | alloc {t : ancestry_tracker} : Reach t → Reach (get_next_indexes t).2
  | stage {t : ancestry_tracker} (bps : List (ℚ × ℚ)) (p c : Int) :
      Reach t → Reach (add_edges t bps p c)
  | finish {t t' : ancestry_tracker} :
      Reach t → finish_generation t = some t' → Reach t'
  | prep {t : ancestry_tracker} : Reach t → Reach (prep_for_gc t)
  | post {t : ancestry_tracker} (gc : Bool) (X : Int) :
      Reach t → Reach (post_process_gc t gc X)

/-- The maximum node time across a node store (the quantity the spec's
prepare-phase description refers to), taken with the first node's time as the
base so that it is the true maximum on any non-empty store. -/
def max_node_time (l : List node) : Int :=
  l.foldl (fun m n => max m n.generation) ((l.headD (make_node 0 0 0)).generation)

/-- C5: after `post_process_gc` with the simplify flag true and new index X,
the node and edge stores are empty, `next_index = X`,
`first_parental_index = 0`, and the last-simplification marker equals the
generation counter at the time of the call. -/
theorem post_process_gc_simplify_spec (t : ancestry_tracker) (X : Int) :
    (post_process_gc t true X).nodes = [] ∧
    (post_process_gc t true X).edges = [] ∧
    (post_process_gc t true X).next_index = X ∧
    (post_process_gc t true X).first_parental_index = 0 ∧
    (post_process_gc t true X).last_gc_time = t.generation := by
  simp [post_process_gc]

/-- C6: `post_process_gc` with the simplify flag false is a no-op: the whole
tracker state is unchanged, whatever the index argument. -/
theorem post_process_gc_noop (t : ancestry_tracker) (X : Int) :
    post_process_gc t false X = t := by
  simp [post_process_gc]

/-- C10: `post_process_gc` with the simplify flag true leaves the edge
staging buffer, the offspring-identity list, the generation counter and
`lastN` unchanged; the reset touches only the node store, the edge store,
`next_index`, `first_parental_index` and the last-simplification marker. -/
theorem post_process_gc_frame (t : ancestry_tracker) (X : Int) :
    (post_process_gc t true X).temp = t.temp ∧
    (post_process_gc t true X).offspring_indexes = t.offspring_indexes ∧
    (post_process_gc t true X).generation = t.generation ∧
    (post_process_gc t true X).lastN = t.lastN := by
  simp [post_process_gc]

/-- C8: `get_parent_ids(p, swapped)` returns
`(first_parental_index + 2p + swapped, first_parental_index + 2p + !swapped)`;
the two identities are distinct, and flipping `swapped` swaps the pair
without changing the underlying set. -/
theorem get_parent_ids_spec (t : ancestry_tracker) (p : Nat) (s : Bool) :
    get_parent_ids t p s =
      (t.first_parental_index + 2 * (p : Int) + (if s then 1 else 0),
       t.first_parental_index + 2 * (p : Int) + (if s then 0 else 1)) ∧
    (get_parent_ids t p s).1 ≠ (get_parent_ids t p s).2 ∧
    (get_parent_ids t p s).1 = (get_parent_ids t p (!s)).2 ∧
    (get_parent_ids t p s).2 = (get_parent_ids t p (!s)).1 := by
  cases s <;> simp [get_parent_ids]

/-- C9: `finish_generation` is defined (performs no out-of-bounds read of
`offspring_indexes.front()`) exactly when the offspring-identity list is
non-empty; on an empty list the behaviour is undefined, modelled by `none`. -/
theorem finish_generation_defined_iff (t : ancestry_tracker) :
    (finish_generation t).isSome = true ↔ t.offspring_indexes ≠ [] := by
  by_cases h : t.offspring_indexes = [] <;> simp [finish_generation, h]

/-- C7: for N > 0, a freshly constructed tracker has exactly 2N nodes, the
j-th of which has id j, time 0 and population 0 (so the ids are the distinct
ascending sequence 0..2N-1), with next_index = 2N and
first_parental_index = 0. -/
theorem init_spec (N : Int) (h : 0 < N) :
    ((ancestry_tracker.init N).nodes.length : Int) = 2 * N ∧
    (∀ j (hj : j < (ancestry_tracker.init N).nodes.length),
      (ancestry_tracker.init N).nodes.get ⟨j, hj⟩ = make_node (j : Int) 0 0) ∧
    (ancestry_tracker.init N).next_index = 2 * N ∧
    (ancestry_tracker.init N).first_parental_index = 0 := by
  refine ⟨?_, ?_, rfl, rfl⟩
  · have hl : (ancestry_tracker.init N).nodes.length = (2 * N).toNat := by
      simp [ancestry_tracker.init]
    rw [hl]
    omega
  · intro j hj
    simp only [ancestry_tracker.init, List.get_eq_getElem, List.getElem_map,
      List.getElem_range]

/-- C7 witness: the theorem instantiated at N = 1, with its hypothesis
discharged and the node list of the concrete state evaluated. -/
theorem init_spec_witness :
    (0 : Int) < 1 ∧
    ((ancestry_tracker.init 1).nodes.length : Int) = 2 * 1 ∧
    (ancestry_tracker.init 1).nodes.get
        ⟨0, by decide⟩ = make_node 0 0 0 ∧
    (ancestry_tracker.init 1).next_index = 2 * 1 ∧
    (ancestry_tracker.init 1).first_parental_index = 0 :=
  ⟨by decide, (init_spec 1 (by decide)).1,
   (init_spec 1 (by decide)).2.1 0 (by decide),
   (init_spec 1 (by decide)).2.2.1, (init_spec 1 (by decide)).2.2.2⟩

/-- A two-offspring first generation: `init 1` followed by one allocator
call, so the offspring-identity list is the non-empty [2, 3]. -/
def c1_state : ancestry_tracker :=
  (get_next_indexes (ancestry_tracker.init 1)).2

/-- C1 counterexample: the claim that `finish_generation` leaves the
offspring-identity list empty is false.  From a real trace (`init 1`, one
allocator call), `finish_generation` succeeds yet the offspring-identity
list afterwards is [2, 3], not []: the source clears only `temp`. -/
theorem c1_counterexample :
    ¬ (∀ t', finish_generation c1_state = some t' →
        t'.offspring_indexes = []) := fun h =>
  absurd (h _ rfl) (by decide)

/-- C1 (amended): after a successful `finish_generation`, the edge staging
buffer is empty and the offspring-identity list is unchanged (the source
clears `temp` only; `offspring_indexes` is kept, per the source comment, as
the sample indexes for the simplifier). -/
theorem finish_generation_clears_temp_only (t t' : ancestry_tracker)
    (h : finish_generation t = some t') :
    t'.temp = [] ∧ t'.offspring_indexes = t.offspring_indexes := by
  by_cases he : t.offspring_indexes = []
  · simp [finish_generation, he] at h
  · simp only [finish_generation, he, if_neg] at h
    cases h
    exact ⟨rfl, rfl⟩

/-- C1 witness: the amended theorem applied to the concrete trace state,
its hypothesis discharged by evaluation. -/
theorem finish_generation_clears_temp_only_witness :
    ((finish_generation c1_state).getD c1_state).temp = [] ∧
    ((finish_generation c1_state).getD c1_state).offspring_indexes =
      c1_state.offspring_indexes :=
  finish_generation_clears_temp_only c1_state _ rfl

/-- One full first generation from `init 1`: one allocator call, then
`finish_generation`, giving node times [0, 0, 1, 1]. -/
def c4_base : ancestry_tracker :=
  (finish_generation (get_next_indexes (ancestry_tracker.init 1)).2).getD
    (ancestry_tracker.init 1)

/-- `c4_base` after one prepare phase: node times [1, 1, 0, 0], a reachable
non-empty store whose last node does not carry the maximum time. -/
def c4_state : ancestry_tracker :=
  prep_for_gc c4_base

/-- C4 counterexample: on the reachable state `c4_state` (node times
[1, 1, 0, 0]), `prep_for_gc` sets the first node's time to -(1 - 0) = -1,
because the source uses the LAST node's time (here 0), not the maximum time
over all nodes (here 1); the claim predicts -(1 - 1) = 0. -/
theorem c4_counterexample :
    Reach c4_state ∧ c4_state.nodes ≠ [] ∧
    ((prep_for_gc c4_state).nodes.headD (make_node 0 0 0)).generation ≠
      -((c4_state.nodes.headD (make_node 0 0 0)).generation -
        max_node_time c4_state.nodes) :=
  ⟨Reach.prep (Reach.finish (Reach.alloc (Reach.init 1)) rfl),
   by decide, by decide⟩

/-- C4 (amended): on a non-empty node store, `prep_for_gc` keeps every
node's id and population and the store's length, and replaces the j-th
node's time by the negation of (its original time minus the LAST node's
original time) — `nodes.back().generation`, which coincides with the
maximum only when the store is sorted by time, as during the accumulation
phase; the edge store, generation counter and identity counters are
unchanged. -/
theorem prep_for_gc_last_time_spec (t : ancestry_tracker)
    (h : t.nodes ≠ []) :
    (prep_for_gc t).nodes.length = t.nodes.length ∧
    (∀ j (hj : j < t.nodes.length) (hj2 : j < (prep_for_gc t).nodes.length),
      ((prep_for_gc t).nodes.get ⟨j, hj2⟩).id = (t.nodes.get ⟨j, hj⟩).id ∧
      ((prep_for_gc t).nodes.get ⟨j, hj2⟩).population =
        (t.nodes.get ⟨j, hj⟩).population ∧
      ((prep_for_gc t).nodes.get ⟨j, hj2⟩).generation =
        -((t.nodes.get ⟨j, hj⟩).generation -
          (t.nodes.getLastD (make_node 0 0 0)).generation)) ∧
    (prep_for_gc t).edges = t.edges ∧
    (prep_for_gc t).generation = t.generation ∧
    (prep_for_gc t).next_index = t.next_index ∧
    (prep_for_gc t).first_parental_index = t.first_parental_index := by
  unfold prep_for_gc
  rw [if_neg h]
  refine ⟨by simp, ?_, rfl, rfl, rfl, rfl⟩
  intro j hj hj2
  simp [List.get_eq_getElem, List.getElem_map]

/-- C4 witness: the amended theorem applied to the concrete state `init 1`
(node times [0, 0]), hypotheses discharged by evaluation. -/
theorem prep_for_gc_last_time_spec_witness :
    (ancestry_tracker.init 1).nodes ≠ [] ∧
    (prep_for_gc (ancestry_tracker.init 1)).nodes.length =
      (ancestry_tracker.init 1).nodes.length ∧
    ((prep_for_gc (ancestry_tracker.init 1)).nodes.get
        ⟨0, by decide⟩).generation =
      -(((ancestry_tracker.init 1).nodes.get ⟨0, by decide⟩).generation -
        ((ancestry_tracker.init 1).nodes.getLastD (make_node 0 0 0)).generation) ∧
    (prep_for_gc (ancestry_tracker.init 1)).edges =
      (ancestry_tracker.init 1).edges :=
  ⟨by decide, (prep_for_gc_last_time_spec _ (by decide)).1,
   ((prep_for_gc_last_time_spec _ (by decide)).2.1 0 (by decide)
     (by decide)).2.2,
   (prep_for_gc_last_time_spec _ (by decide)).2.2.1⟩

/-- State after generation 1 (from `init 1`: one allocator call giving
identities (2, 3), then `finish_generation`): `first_parental_index = 2`,
generation counter 2, offspring-identity list still [2, 3]. -/
def c3_s2 : ancestry_tracker :=
  (finish_generation (get_next_indexes (ancestry_tracker.init 1)).2).getD
    (ancestry_tracker.init 1)

/-- The identity pair allocated in generation 2: (4, 5), so the first
offspring produced in generation 2 has identity 4. -/
def c3_pair2 : Int × Int :=
  (get_next_indexes c3_s2).1

/-- State after generation 2's `finish_generation`. -/
def c3_s4 : ancestry_tracker :=
  (finish_generation (get_next_indexes c3_s2).2).getD c3_s2

/-- C3 counterexample: in the reachable state after two generations, the
first offspring produced in the immediately preceding generation
(generation 2) has identity 4, but `first_parental_index` is 2 (and not 0):
`offspring_indexes` is never cleared, so `front()` still yields the first
offspring of generation 1. -/
theorem c3_counterexample :
    Reach c3_s4 ∧
    c3_pair2.1 = 4 ∧
    c3_s4.first_parental_index = 2 ∧
    c3_s4.first_parental_index ≠ c3_pair2.1 ∧
    c3_s4.first_parental_index ≠ 0 :=
  ⟨Reach.finish (Reach.alloc (Reach.finish (Reach.alloc (Reach.init 1))
      rfl)) rfl,
   by decide, by decide, by decide, by decide⟩

/-- C3 (amended): in every reachable tracker state,
`first_parental_index` is 0 (after initialization or after a full reset by
the absorb phase), or equals the FIRST element of the offspring-identity
list — the first offspring allocated since that list was last empty.  Since
`finish_generation` does not clear the list, that element is the first
offspring of the first generation finished since the list was last empty,
not necessarily of the immediately preceding generation. -/
theorem first_parental_index_invariant (t : ancestry_tracker)
    (h : Reach t) :
    t.first_parental_index = 0 ∨
    t.offspring_indexes.head? = some t.first_parental_index := by
  induction h with
  | init N => exact Or.inl rfl
  | @alloc t ht ih =>
    rcases ih with h0 | hh
    · exact Or.inl h0
    · right
      simp [get_next_indexes, List.head?_append, hh]
  | @stage t bps p c ht ih =>
    simpa [add_edges] using ih
  | @finish t t' ht hf ih =>
    by_cases he : t.offspring_indexes = []
    · simp [finish_generation, he] at hf
    · right
      rw [finish_generation, if_neg he] at hf
      cases hf
      cases hl : t.offspring_indexes with
      | nil => exact absurd hl he
      | cons a l => simp [hl]
  | @prep t ht ih =>
    have h1 : (prep_for_gc t).first_parental_index =
        t.first_parental_index := by
      unfold prep_for_gc
      split <;> rfl
    have h2 : (prep_for_gc t).offspring_indexes = t.offspring_indexes := by
      unfold prep_for_gc
      split <;> rfl
    rw [h1, h2]
    exact ih
  | @post t gc X ht ih =>
    cases gc
    · simpa [post_process_gc] using ih
    · exact Or.inl (by simp [post_process_gc])

/-- C3 witness: the amended invariant applied to the concrete reachable
state `init 1`, its reachability hypothesis discharged by the `init`
constructor. -/
theorem first_parental_index_invariant_witness :
    (ancestry_tracker.init 1).first_parental_index = 0 ∨
    (ancestry_tracker.init 1).offspring_indexes.head? =
      some (ancestry_tracker.init 1).first_parental_index :=
  first_parental_index_invariant _ (Reach.init 1)

/-- The contiguous identity block of length m starting at n. -/
def id_run (n : Int) : Nat → List Int
  | 0 => []
  | m + 1 => n :: id_run (n + 1) m

/-- The list of k consecutive identity pairs starting at n. -/
def pair_run (n : Int) : Nat → List (Int × Int)
  | 0 => []
  | k + 1 => (n, n + 1) :: pair_run (n + 2) k

/-- An identity block is the range translated by its base. -/
theorem id_run_eq (n : Int) (m : Nat) :
    id_run n m = (List.range m).map (fun i : Nat => n + (i : Int)) := by
  induction m generalizing n with
  | zero => rfl
  | succ m ih =>
    rw [id_run, ih, List.range_succ_eq_map, List.map_cons, List.map_map]
    simp only [List.cons.injEq]
    refine ⟨by simp, ?_⟩
    congr 1
    funext i
    simp only [Function.comp_apply]
    push_cast
    ring

/-- A pair block is the range mapped through the pair formula. -/
theorem pair_run_eq (n : Int) (k : Nat) :
    pair_run n k = (List.range k).map
      (fun i : Nat => (n + 2 * (i : Int), n + 2 * (i : Int) + 1)) := by
  induction k generalizing n with
  | zero => rfl
  | succ k ih =>
    rw [pair_run, ih, List.range_succ_eq_map, List.map_cons, List.map_map]
    simp only [List.cons.injEq]
    refine ⟨by simp, ?_⟩
    congr 1
    funext i
    simp only [Function.comp_apply, Prod.mk.injEq]
    push_cast
    constructor <;> ring

/-- Unfolding an identity block twice. -/
theorem id_run_succ_succ (n : Int) (m : Nat) :
    id_run n (m + 2) = n :: (n + 1) :: id_run (n + 2) m := by
  show id_run n (m + 1 + 1) = _
  rw [id_run, id_run]
  have h : (n + 1) + 1 = n + 2 := by ring
  rw [h]

/-- Running the allocator k times returns the k consecutive pairs starting
at the entry `next_index`, advances `next_index` by 2k, appends the 2k new
identities to the offspring list in order, and changes nothing else. -/
theorem alloc_pairs_run (k : Nat) (t : ancestry_tracker) :
    (alloc_pairs k t).1 = pair_run t.next_index k ∧
    (alloc_pairs k t).2.nodes = t.nodes ∧
    (alloc_pairs k t).2.generation = t.generation ∧
    (alloc_pairs k t).2.temp = t.temp ∧
    (alloc_pairs k t).2.edges = t.edges ∧
    (alloc_pairs k t).2.first_parental_index = t.first_parental_index ∧
    (alloc_pairs k t).2.next_index = t.next_index + 2 * (k : Int) ∧
    (alloc_pairs k t).2.offspring_indexes =
      t.offspring_indexes ++ id_run t.next_index (2 * k) := by
  induction k generalizing t with
  | zero =>
    refine ⟨rfl, rfl, rfl, rfl, rfl, rfl, by simp [alloc_pairs], ?_⟩
    simp [alloc_pairs, id_run]
  | succ k ih =>
    obtain ⟨h1, h2, h3, h4, h5, h6, h7, h8⟩ := ih (get_next_indexes t).2
    rw [Nat.mul_succ]
    refine ⟨?_, h2, h3, h4, h5, h6, ?_, ?_⟩
    · rw [alloc_pairs]
      rw [h1]
      simp only [get_next_indexes, pair_run]
    · rw [alloc_pairs]
      rw [h7]
      simp only [get_next_indexes]
      push_cast
      ring
    · rw [alloc_pairs]
      rw [h8]
      simp only [get_next_indexes]
      rw [List.append_assoc]
      congr 1
      rw [id_run_succ_succ]
      rfl

/-- On a non-empty offspring-identity list, `finish_generation` succeeds and
produces the state written out field by field. -/
theorem finish_generation_of_ne (t : ancestry_tracker)
    (h : t.offspring_indexes ≠ []) :
    finish_generation t = some
      { t with
        nodes := t.nodes ++
          t.offspring_indexes.map (fun oi => make_node oi t.generation 0),
        edges := t.edges ++ t.temp,
        lastN := ((t.next_index - t.first_parental_index) % 2 ^ 32).toNat,
        first_parental_index := t.offspring_indexes.headD 0,
        temp := [],
        generation := t.generation + 1 } := by
  rw [finish_generation, if_neg h]

/-- The reachable state at the start of generation 2 (from `init 1`: one
allocator call giving identities (2, 3), then `finish_generation`): 4 nodes,
generation counter 2, next_index 4, and — since no tracker operation clears
it — an offspring-identity list still holding [2, 3]. -/
def c2_state : ancestry_tracker :=
  (finish_generation (get_next_indexes (ancestry_tracker.init 1)).2).getD
    (ancestry_tracker.init 1)

/-- C2 counterexample: in the reachable generation-2 state (4 nodes,
leftover offspring list [2, 3]), k = 1 allocator call followed by
`finish_generation` yields 8 nodes — it appends 4 nodes (one per element of
the accumulated list [2, 3, 4, 5], re-emitting the stale identities 2 and
3), not the claimed 2k = 2. -/
theorem c2_counterexample :
    Reach c2_state ∧
    c2_state.nodes.length = 4 ∧
    (finish_generation ((alloc_pairs 1 c2_state).2)).map
      (fun t => t.nodes.length) = some 8 ∧
    (8 : Nat) ≠ 4 + 2 * 1 :=
  ⟨Reach.finish (Reach.alloc (Reach.init 1)) rfl,
   by decide, by decide, by decide⟩

/-- C2 (amended): calling the allocator k ≥ 1 times in any state yields the
pairs (next_index + 2i, next_index + 2i + 1) for i < k — 2k new identities
forming the contiguous strictly ascending block
next_index..next_index+2k-1, each pair's first exactly 2 above the previous
pair's first — appended to the offspring-identity list; the subsequent
`finish_generation` succeeds and appends one node per element of that
accumulated list, i.e. exactly 2k nodes only when the list was empty when
the generation began (no tracker operation clears it) and 2k plus the
leftover entries otherwise, each appended node carrying the pre-increment
generation counter as its time. -/
theorem alloc_pairs_finish_spec_amended (t : ancestry_tracker) (k : Nat)
    (hk : 1 ≤ k) :
    (alloc_pairs k t).1 = (List.range k).map
      (fun i : Nat =>
        (t.next_index + 2 * (i : Int), t.next_index + 2 * (i : Int) + 1)) ∧
    (id_run t.next_index (2 * k)).Pairwise (fun a b => a < b) ∧
    (id_run t.next_index (2 * k)).length = 2 * k ∧
    (alloc_pairs k t).2.offspring_indexes =
      t.offspring_indexes ++ id_run t.next_index (2 * k) ∧
    ∃ t', finish_generation ((alloc_pairs k t).2) = some t' ∧
      t'.nodes = t.nodes ++
        ((alloc_pairs k t).2.offspring_indexes).map
          (fun oi => make_node oi t.generation 0) ∧
      t'.nodes.length =
        t.nodes.length + t.offspring_indexes.length + 2 * k ∧
      t'.generation = t.generation + 1 := by
  obtain ⟨h1, h2, h3, h4, h5, h6, h7, h8⟩ := alloc_pairs_run k t
  have hidlen : (id_run t.next_index (2 * k)).length = 2 * k := by
    rw [id_run_eq]
    simp
  have hne : (alloc_pairs k t).2.offspring_indexes ≠ [] := by
    rw [h8]
    intro hnil
    have hlen := congrArg List.length hnil
    simp only [List.length_append, hidlen, List.length_nil] at hlen
    omega
  refine ⟨by rw [h1, pair_run_eq], ?_, hidlen, h8, ?_⟩
  · rw [id_run_eq, List.pairwise_map]
    refine (List.pairwise_lt_range (2 * k)).imp ?_
    intro a b hab
    have hc : (a : Int) < (b : Int) := by exact_mod_cast hab
    omega
  · refine ⟨_, finish_generation_of_ne _ hne, ?_, ?_, ?_⟩
    · rw [h2, h3]
    · rw [h2, h3]
      simp only [List.length_append, List.length_map, h8, hidlen]
      omega
    · rw [h3]

/-- C2 witness: the amended theorem applied in the concrete generation-2
state `c2_state` with k = 1, its hypothesis discharged by evaluation. -/
theorem alloc_pairs_finish_spec_amended_witness :
    1 ≤ 1 ∧
    (alloc_pairs 1 c2_state).2.offspring_indexes =
      c2_state.offspring_indexes ++ id_run c2_state.next_index (2 * 1) ∧
    (id_run c2_state.next_index (2 * 1)).length = 2 * 1 ∧
    (alloc_pairs 1 c2_state).1 = (List.range 1).map
      (fun i : Nat =>
        (c2_state.next_index + 2 * (i : Int),
         c2_state.next_index + 2 * (i : Int) + 1)) :=
  ⟨by decide,
   (alloc_pairs_finish_spec_amended c2_state 1 (by decide)).2.2.2.1,
   (alloc_pairs_finish_spec_amended c2_state 1 (by decide)).2.2.1,
   (alloc_pairs_finish_spec_amended c2_state 1 (by decide)).1⟩
